import Mathlib

/-!
# Shallow embedding of the `chip8` crate (`src/lib.rs`)

The machine state (`struct Chip8`) and its operations `new`, `cycle` and
`timers` are translated into Lean.  Machine bytes (`u8`) become `Nat` with
explicit `% 256` where Rust arithmetic wraps; bit operations on bytes are
rendered arithmetically (`x >> 4` is `x / 16`, `x & 0x0F` is `x % 16`,
`x & 63` is `x % 64`, `(x << k) as u8` is `x * 2 ^ k % 256`) except for the
display compositing XOR, which stays `^^^`.  Rust panics (out-of-bounds
indexing, `unwrap` on an empty stack, `todo!`, the unrecognized-opcode
`panic!`) are modelled by `Except.error` carrying the state as it is at the
moment of the panic, so that partial mutation before a failure is visible.
The `draw` and `beep` callbacks are side effects on the host; `cycle`'s
callback receives a copy of the display (available as the `display` field of
the result), and `timers` returns the number of `beep` invocations.
-/

/-- `DISPLAY_WIDTH` from the source. -/
def DISPLAY_WIDTH : Nat := 64

/-- `DISPLAY_HEIGHT` from the source. -/
def DISPLAY_HEIGHT : Nat := 32

/-- `DISPLAY_SIZE = WIDTH * HEIGHT / 8` from the source. -/
def DISPLAY_SIZE : Nat := DISPLAY_WIDTH * DISPLAY_HEIGHT / 8

/-- The built-in `FONT_BYTES` table (80 bytes, 16 glyphs of 5 rows). -/
def FONT_BYTES : List Nat :=
  [0xF0, 0x90, 0x90, 0x90, 0xF0,
   0x20, 0x60, 0x20, 0x20, 0x70,
   0xF0, 0x10, 0xF0, 0x80, 0xF0,
   0xF0, 0x10, 0xF0, 0x10, 0xF0,
   0x90, 0x90, 0xF0, 0x10, 0x10,
   0xF0, 0x80, 0xF0, 0x10, 0xF0,
   0xF0, 0x80, 0xF0, 0x90, 0xF0,
   0xF0, 0x10, 0x20, 0x40, 0x40,
   0xF0, 0x90, 0xF0, 0x90, 0xF0,
   0xF0, 0x90, 0xF0, 0x10, 0xF0,
   0xF0, 0x90, 0xF0, 0x90, 0x90,
   0xE0, 0x90, 0xE0, 0x90, 0xE0,
   0xF0, 0x80, 0x80, 0x80, 0xF0,
   0xE0, 0x90, 0x90, 0x90, 0xE0,
   0xF0, 0x80, 0xF0, 0x80, 0xF0,
   0xF0, 0x80, 0xF0, 0x80, 0x80]

/-- The state of `struct Chip8`: memory `[u8; 4096]`, display
`[u8; DISPLAY_SIZE]`, program counter, index register `i`, call stack
(`Vec<u16>`, most recent element at the head), the two timers, and the 16
registers.  The `std`-only wall-clock fields drive scheduling only and carry
no architectural state. -/
structure Chip8 where
  memory : List Nat
  display : List Nat
  pc : Nat
  i : Nat
  stack : List Nat
  delay_timer : Nat
  sound_timer : Nat
  registers : List Nat
  deriving DecidableEq, Repr

/-- Bounds-checked store, mirroring Rust's `a[i] = v` on a slice: the write
panics (`none`) when the index is out of range. -/
def setChecked (l : List Nat) (i v : Nat) : Option (List Nat) :=
  if i < l.length then some (l.set i v) else none

/-- `mem[lo..lo+src.len()].copy_from_slice(src)` element by element (the
range check is done by the caller `Chip8.new`). -/
def storeSlice (dest : List Nat) (start : Nat) : List Nat → List Nat
  | [] => dest
  | b :: rest => storeSlice (dest.set start b) (start + 1) rest

/-- Outcome of `Chip8::new`.  The Rust constructor returns `Self` and has no
error path: when the program does not fit, the slice indexing
`memory[0x200..0x200 + program.len()]` panics with a range error.  `panic`
models that outcome; there is no error-result constructor because the code
has none. -/
inductive NewResult where
  | ok (c : Chip8)
  | panic
  deriving DecidableEq, Repr

/-- `Chip8::new(program, custom_font)`: font (custom or built-in) copied to
`0x050..0x0A0`, program copied to `0x200..`, everything else zeroed.  In Rust
`custom_font` is `Option<[u8; 80]>`, so its length is fixed by the type. -/
def Chip8.new (program : List Nat) (custom_font : Option (List Nat)) : NewResult :=
  if 0x200 + program.length ≤ 4096 then
    NewResult.ok
      { memory :=
          storeSlice (storeSlice (List.replicate 4096 0) 0x050 (custom_font.getD FONT_BYTES))
            0x200 program
        display := List.replicate DISPLAY_SIZE 0
        pc := 0x200
        i := 0
        stack := []
        delay_timer := 0
        sound_timer := 0
        registers := List.replicate 16 0 }
  else NewResult.panic

/-- The `for i in 0..n` loop of the `Dxyn` arm: row `i` of the sprite is
read from `memory[I + i]` and XORed into display byte
`di = (y + i) * (WIDTH / 8) + x_byte`; when `x_byte < WIDTH / 8 && x_offset != 0`
the spilled bits go into `display[di + 1]`.  Rows with `y + i >= HEIGHT` stop
the loop.  The two arguments after the display are the loop counter `i` and
the remaining iteration count; errors carry the partially drawn display. -/
def drawRows (mem : List Nat) (iBase x_byte x_offset yc : Nat) :
    Nat → Nat → List Nat → Except (List Nat) (List Nat)
  | _, 0, disp => Except.ok disp
  | i, rem + 1, disp =>
    if DISPLAY_HEIGHT ≤ yc + i then Except.ok disp
    else
      match mem[iBase + i]? with
      | none => Except.error disp
      | some row =>
        -- let di = (y + i) * (WIDTH / 8) + x_byte; display[di] ^= row >> x_offset
        match disp[(yc + i) * (DISPLAY_WIDTH / 8) + x_byte]? with
        | none => Except.error disp
        | some cur =>
          if x_byte < DISPLAY_WIDTH / 8 ∧ x_offset ≠ 0 then
            -- display[di + 1] ^= row << (8 - x_offset)
            match (disp.set ((yc + i) * (DISPLAY_WIDTH / 8) + x_byte)
                (cur ^^^ row / 2 ^ x_offset))[(yc + i) * (DISPLAY_WIDTH / 8) + x_byte + 1]? with
            | none =>
              Except.error (disp.set ((yc + i) * (DISPLAY_WIDTH / 8) + x_byte)
                (cur ^^^ row / 2 ^ x_offset))
            | some cur2 =>
              drawRows mem iBase x_byte x_offset yc (i + 1) rem
                ((disp.set ((yc + i) * (DISPLAY_WIDTH / 8) + x_byte)
                    (cur ^^^ row / 2 ^ x_offset)).set
                  ((yc + i) * (DISPLAY_WIDTH / 8) + x_byte + 1)
                  (cur2 ^^^ row * 2 ^ (8 - x_offset) % 256))
          else
            drawRows mem iBase x_byte x_offset yc (i + 1) rem
              (disp.set ((yc + i) * (DISPLAY_WIDTH / 8) + x_byte) (cur ^^^ row / 2 ^ x_offset))

/-- The dispatch `match` of `Chip8::cycle`, acting on the state `t` in which
`pc` has already been advanced by 2, with the four decoded nibbles
`(o, x, y, n)`.  An `Except.error` is a Rust panic, carrying the state at the
moment of the panic. -/
def Chip8.exec (t : Chip8) (o x y n : Nat) : Except Chip8 Chip8 :=
  match o with
  | 0x0 =>
    if x = 0x0 ∧ y = 0xE then
      match n with
      | 0x0 => Except.ok { t with display := List.replicate DISPLAY_SIZE 0 }
      | 0xE =>
        match t.stack with
        | [] => Except.error t
        | a :: rest => Except.ok { t with pc := a, stack := rest }
      | _ => Except.error t
    else Except.error t
  | 0x1 => Except.ok { t with pc := x * 256 + y * 16 + n }
  | 0x2 => Except.ok { t with stack := t.pc :: t.stack, pc := x * 256 + y * 16 + n }
  | 0x3 =>
    match t.registers[x]? with
    | none => Except.error t
    | some value =>
      Except.ok (if value = y * 16 + n then { t with pc := t.pc + 2 } else t)
  | 0x4 =>
    match t.registers[x]? with
    | none => Except.error t
    | some value =>
      Except.ok (if value ≠ y * 16 + n then { t with pc := t.pc + 2 } else t)
  | 0x5 =>
    if n = 0 then
      match t.registers[x]?, t.registers[y]? with
      | some vx, some vy =>
        Except.ok (if vx = vy then { t with pc := t.pc + 2 } else t)
      | _, _ => Except.error t
    else Except.error t
  | 0x6 =>
    match setChecked t.registers x (y * 16 + n) with
    | none => Except.error t
    | some r => Except.ok { t with registers := r }
  | 0x7 =>
    match t.registers[x]? with
    | none => Except.error t
    | some vx =>
      Except.ok { t with registers := t.registers.set x ((vx + (y * 16 + n)) % 256) }
  | 0x8 =>
    match n with
    | 0x0 =>
      match t.registers[y]? with
      | none => Except.error t
      | some vy =>
        match setChecked t.registers x vy with
        | none => Except.error t
        | some r => Except.ok { t with registers := r }
    | 0x1 =>
      match t.registers[x]?, t.registers[y]? with
      | some vx, some vy =>
        Except.ok { t with registers := t.registers.set x (vx ||| vy) }
      | _, _ => Except.error t
    | 0x2 =>
      match t.registers[x]?, t.registers[y]? with
      | some vx, some vy =>
        Except.ok { t with registers := t.registers.set x (vx &&& vy) }
      | _, _ => Except.error t
    | 0x3 =>
      match t.registers[x]?, t.registers[y]? with
      | some vx, some vy =>
        Except.ok { t with registers := t.registers.set x (vx ^^^ vy) }
      | _, _ => Except.error t
    | 0x4 =>
      match t.registers[x]?, t.registers[y]? with
      | some vx, some vy =>
        -- let out = vx + vy (as u16); registers[x] = out & 0x00FF, then VF = carry
        match setChecked (t.registers.set x ((vx + vy) % 256)) 0xF
            (if 256 ≤ vx + vy then 1 else 0) with
        | none => Except.error { t with registers := t.registers.set x ((vx + vy) % 256) }
        | some r2 => Except.ok { t with registers := r2 }
      | _, _ => Except.error t
    | 0x5 =>
      match t.registers[x]?, t.registers[y]? with
      | some vx, some vy =>
        if vy < vx then
          match setChecked (t.registers.set x (vx - vy)) 0xF 1 with
          | none => Except.error { t with registers := t.registers.set x (vx - vy) }
          | some r2 => Except.ok { t with registers := r2 }
        else
          -- registers[x] = (0x100 - (vy - vx) as u16) as u8
          match setChecked (t.registers.set x ((0x100 - (vy - vx)) % 256)) 0xF 0 with
          | none =>
            Except.error { t with registers := t.registers.set x ((0x100 - (vy - vx)) % 256) }
          | some r2 => Except.ok { t with registers := r2 }
      | _, _ => Except.error t
    | 0x7 =>
      match t.registers[x]?, t.registers[y]? with
      | some vx, some vy =>
        if vx < vy then
          match setChecked (t.registers.set x (vy - vx)) 0xF 1 with
          | none => Except.error { t with registers := t.registers.set x (vy - vx) }
          | some r2 => Except.ok { t with registers := r2 }
        else
          -- registers[x] = (0x100 - (vx - vy) as u16) as u8
          match setChecked (t.registers.set x ((0x100 - (vx - vy)) % 256)) 0xF 0 with
          | none =>
            Except.error { t with registers := t.registers.set x ((0x100 - (vx - vy)) % 256) }
          | some r2 => Except.ok { t with registers := r2 }
      | _, _ => Except.error t
    | _ => Except.error t
  | 0x9 =>
    if n = 0 then
      match t.registers[x]?, t.registers[y]? with
      | some vx, some vy =>
        Except.ok (if vx ≠ vy then { t with pc := t.pc + 2 } else t)
      | _, _ => Except.error t
    else Except.error t
  | 0xA => Except.ok { t with i := x * 256 + y * 16 + n }
  | 0xD =>
    match t.registers[x]?, t.registers[y]? with
    | some vx, some vy =>
      -- x = registers[x] & (WIDTH - 1); x_byte = x / 8; x_offset = x % 8;
      -- y = registers[y] & (HEIGHT - 1); registers[0xF] = 0; then the row loop
      match setChecked t.registers 0xF 0 with
      | none => Except.error t
      | some r =>
        match drawRows t.memory t.i (vx % DISPLAY_WIDTH / 8) (vx % DISPLAY_WIDTH % 8)
            (vy % DISPLAY_HEIGHT) 0 n t.display with
        | Except.error d => Except.error { t with registers := r, display := d }
        | Except.ok d => Except.ok { t with registers := r, display := d }
    | _, _ => Except.error t
  | _ => Except.error t

/-- `Chip8::cycle`: fetch the two instruction bytes at `pc`, split them into
nibbles (`>> 4` is `/ 16` and `& 0x0F` is `% 16` on a byte), advance `pc` by
2, then dispatch through `Chip8.exec`. -/
def Chip8.cycle (s : Chip8) : Except Chip8 Chip8 :=
  match s.memory[s.pc]?, s.memory[s.pc + 1]? with
  | some current, some current2 =>
    Chip8.exec { s with pc := s.pc + 2 } (current / 16) (current % 16)
      (current2 / 16) (current2 % 16)
  | _, _ => Except.error s

/-- `Chip8::timers(beep)`: decrement the delay timer when positive; when the
sound timer is positive, call `beep` once and decrement it.  The second
component counts the `beep` invocations. -/
def Chip8.timers (s : Chip8) : Chip8 × Nat :=
  let s1 := if 0 < s.delay_timer then { s with delay_timer := s.delay_timer - 1 } else s
  if 0 < s1.sound_timer then ({ s1 with sound_timer := s1.sound_timer - 1 }, 1)
  else (s1, 0)

/-!
## Concrete machines used to evaluate the code at specific inputs

`cycle` fetches at `pc` and reads sprite rows at `i`; small memories with
`pc = 0` exercise exactly the same code paths as a full 4096-byte image.
-/

/-- A machine about to run `D011` (draw 1 row at `(V0, V1) = (0, 0)`) whose
display already has pixel `(0, 0)` set and whose sprite row is `0x80`: the
XOR erases that pixel, i.e. a collision happens. -/
def sCollide : Chip8 :=
  { memory := [0xD0, 0x11, 0x80]
    display := (List.replicate 256 0).set 0 0x80
    pc := 0
    i := 2
    stack := []
    delay_timer := 0
    sound_timer := 0
    registers := List.replicate 16 0 }

/-- A machine about to run `D011` with `V0 = 60` (so `x_byte = 7`,
`x_offset = 4`) and `V1 = 31` (bottom row): the spill write targets display
index 256, out of bounds. -/
def sEdgeBottom : Chip8 :=
  { memory := [0xD0, 0x11, 0xFF]
    display := List.replicate 256 0
    pc := 0
    i := 2
    stack := []
    delay_timer := 0
    sound_timer := 0
    registers := ((List.replicate 16 0).set 0 60).set 1 31 }

/-- Like `sEdgeBottom` but with `V1 = 0`: the spill write lands in display
byte 8, the first byte of the next row. -/
def sEdgeTop : Chip8 :=
  { sEdgeBottom with registers := (List.replicate 16 0).set 0 60 }

/-- A machine whose next opcode `B000` is unimplemented: `cycle` panics
after having advanced `pc`. -/
def sOpcodeBad : Chip8 :=
  { memory := [0xB0, 0x00]
    display := []
    pc := 0
    i := 0
    stack := []
    delay_timer := 0
    sound_timer := 0
    registers := List.replicate 16 0 }

/-- A machine about to run `8F04` (`VF += V0`) with `VF = 5`, `V0 = 0`. -/
def sAddVF : Chip8 :=
  { memory := [0x8F, 0x04]
    display := []
    pc := 0
    i := 0
    stack := []
    delay_timer := 0
    sound_timer := 0
    registers := (List.replicate 16 0).set 15 5 }

/-- A machine about to run `8124` (`V1 += V2`) with `V1 = 200`, `V2 = 100`. -/
def sAddWit : Chip8 :=
  { memory := [0x81, 0x24]
    display := []
    pc := 0
    i := 0
    stack := []
    delay_timer := 0
    sound_timer := 0
    registers := ((List.replicate 16 0).set 1 200).set 2 100 }

/-- A machine about to run `8F24` (`VF += V2`) with `VF = 200`, `V2 = 100`. -/
def sAddCarryWit : Chip8 :=
  { memory := [0x8F, 0x24]
    display := []
    pc := 0
    i := 0
    stack := []
    delay_timer := 0
    sound_timer := 0
    registers := ((List.replicate 16 0).set 15 200).set 2 100 }

/-- A machine with two consecutive `D011` instructions and sprite row `0x80`
at `i = 4`, starting from an all-clear display. -/
def sDbl : Chip8 :=
  { memory := [0xD0, 0x11, 0xD0, 0x11, 0x80]
    display := List.replicate 256 0
    pc := 0
    i := 4
    stack := []
    delay_timer := 0
    sound_timer := 0
    registers := List.replicate 16 0 }

/-- The state of `sDbl` after its first `cycle`: pixel `(0, 0)` drawn,
`pc = 2`, `VF` cleared. -/
def sDblMid : Chip8 :=
  { memory := [0xD0, 0x11, 0xD0, 0x11, 0x80]
    display := (List.replicate 256 0).set 0 0x80
    pc := 2
    i := 4
    stack := []
    delay_timer := 0
    sound_timer := 0
    registers := (List.replicate 16 0).set 15 0 }

/-- A machine about to run the call `2123`. -/
def sCall : Chip8 :=
  { memory := [0x21, 0x23]
    display := []
    pc := 0
    i := 0
    stack := []
    delay_timer := 0
    sound_timer := 0
    registers := [] }

/-- A machine with delay timer 5 and sound timer 3. -/
def sTimerWit : Chip8 :=
  { memory := []
    display := []
    pc := 0
    i := 0
    stack := []
    delay_timer := 5
    sound_timer := 3
    registers := [] }

/-- A machine about to run the clear-screen `00E0` with a non-empty
display. -/
def sClear : Chip8 :=
  { memory := [0x00, 0xE0]
    display := [1, 2, 3]
    pc := 0
    i := 0
    stack := []
    delay_timer := 0
    sound_timer := 0
    registers := [] }

/-- The state of `sClear` after `00E0`. -/
def sClearAfter : Chip8 :=
  { memory := [0x00, 0xE0]
    display := List.replicate DISPLAY_SIZE 0
    pc := 2
    i := 0
    stack := []
    delay_timer := 0
    sound_timer := 0
    registers := [] }

/-!
## Generic lemmas about the embedding
-/

/-- The XOR delta that a successful `drawRows` run applies at display index
`k`; used to state that drawing is a pointwise XOR. -/
def drawMask (mem : List Nat) (iBase x_byte x_offset yc : Nat) : Nat → Nat → Nat → Nat
  | _, 0, _ => 0
  | i, rem + 1, k =>
    if DISPLAY_HEIGHT ≤ yc + i then 0
    else
      (if k = (yc + i) * (DISPLAY_WIDTH / 8) + x_byte
        then ((mem[iBase + i]?).getD 0) / 2 ^ x_offset else 0) ^^^
      (if x_byte < DISPLAY_WIDTH / 8 ∧ x_offset ≠ 0 ∧
          k = (yc + i) * (DISPLAY_WIDTH / 8) + x_byte + 1
        then ((mem[iBase + i]?).getD 0) * 2 ^ (8 - x_offset) % 256 else 0) ^^^
      drawMask mem iBase x_byte x_offset yc (i + 1) rem k

theorem drawMask_zero (mem : List Nat) (iB xb xo yc i k : Nat) :
    drawMask mem iB xb xo yc i 0 k = 0 := rfl

theorem drawMask_succ (mem : List Nat) (iB xb xo yc i rem k : Nat) :
    drawMask mem iB xb xo yc i (rem + 1) k =
      (if DISPLAY_HEIGHT ≤ yc + i then 0
      else
        (if k = (yc + i) * (DISPLAY_WIDTH / 8) + xb
          then ((mem[iB + i]?).getD 0) / 2 ^ xo else 0) ^^^
        (if xb < DISPLAY_WIDTH / 8 ∧ xo ≠ 0 ∧
            k = (yc + i) * (DISPLAY_WIDTH / 8) + xb + 1
          then ((mem[iB + i]?).getD 0) * 2 ^ (8 - xo) % 256 else 0) ^^^
        drawMask mem iB xb xo yc (i + 1) rem k) := rfl

theorem drawRows_pointwise (mem : List Nat) (iB xb xo yc : Nat) :
    ∀ rem i d d', drawRows mem iB xb xo yc i rem d = Except.ok d' →
      d'.length = d.length ∧
      ∀ k, d'[k]? = (d[k]?).map (· ^^^ drawMask mem iB xb xo yc i rem k) := by
  intro rem
  induction rem with
  | zero =>
    intro i d d' h
    unfold drawRows at h
    cases h
    refine ⟨rfl, fun k => ?_⟩
    rw [drawMask_zero]
    cases d[k]? <;> simp
  | succ rem ih =>
    intro i d d' h
    unfold drawRows at h
    split at h
    · -- height break
      cases h
      refine ⟨rfl, fun k => ?_⟩
      rw [drawMask_succ, if_pos (by assumption)]
      cases d[k]? <;> simp
    · -- one sprite row is drawn, then the loop continues
      rename_i hlt
      split at h
      · exact Except.noConfusion h
      rename_i row hrow
      split at h
      · exact Except.noConfusion h
      rename_i cur hcur
      obtain ⟨hdi, -⟩ := List.getElem?_eq_some_iff.mp hcur
      split at h
      · -- spill branch
        rename_i hsp
        split at h
        · exact Except.noConfusion h
        rename_i cur2 hcur2
        obtain ⟨hdi1, -⟩ := List.getElem?_eq_some_iff.mp hcur2
        obtain ⟨hlen, hpt⟩ := ih (i + 1) _ d' h
        simp only [List.length_set] at hlen
        refine ⟨hlen, fun k => ?_⟩
        rw [hpt k]
        rw [drawMask_succ, if_neg hlt]
        have hne : (yc + i) * (DISPLAY_WIDTH / 8) + xb ≠
            (yc + i) * (DISPLAY_WIDTH / 8) + xb + 1 := by omega
        by_cases hk1 : k = (yc + i) * (DISPLAY_WIDTH / 8) + xb
        · subst hk1
          rw [List.getElem?_set_ne hne.symm, List.getElem?_set_self hdi, hcur,
            if_pos rfl, if_neg (by exact fun hc => hne hc.2.2), hrow]
          simp only [Option.map_some', Option.some.injEq, Option.getD_some, Nat.zero_xor,
            Nat.xor_zero]
          rw [Nat.xor_assoc]
        · by_cases hk2 : k = (yc + i) * (DISPLAY_WIDTH / 8) + xb + 1
          · subst hk2
            rw [List.getElem?_set_self hdi1, if_neg hk1, if_pos ⟨hsp.1, hsp.2, rfl⟩, hrow]
            rw [List.getElem?_set_ne hne] at hcur2
            rw [hcur2]
            simp only [Option.map_some', Option.some.injEq, Option.getD_some, Nat.zero_xor,
              Nat.xor_zero]
            rw [Nat.xor_assoc]
          · rw [List.getElem?_set_ne (fun hc => hk2 hc.symm),
              List.getElem?_set_ne (fun hc => hk1 hc.symm),
              if_neg hk1, if_neg (fun hc => hk2 hc.2.2)]
            cases d[k]? <;> simp
      · -- no spill
        rename_i hsp
        obtain ⟨hlen, hpt⟩ := ih (i + 1) _ d' h
        simp only [List.length_set] at hlen
        refine ⟨hlen, fun k => ?_⟩
        rw [hpt k]
        rw [drawMask_succ, if_neg hlt]
        by_cases hk1 : k = (yc + i) * (DISPLAY_WIDTH / 8) + xb
        · subst hk1
          rw [List.getElem?_set_self hdi, hcur, if_pos rfl,
            if_neg (fun hc => hsp ⟨hc.1, hc.2.1⟩), hrow]
          simp only [Option.map_some', Option.some.injEq, Option.getD_some, Nat.zero_xor,
            Nat.xor_zero]
          rw [Nat.xor_assoc]
        · rw [List.getElem?_set_ne (fun hc => hk1 hc.symm), if_neg hk1,
            if_neg (fun hc => hsp ⟨hc.1, hc.2.1⟩)]
          cases d[k]? <;> simp

theorem drawRows_ok_of_length (mem : List Nat) (iB xb xo yc : Nat) :
    ∀ rem i d d' e, drawRows mem iB xb xo yc i rem d = Except.ok d' →
      e.length = d.length → ∃ e', drawRows mem iB xb xo yc i rem e = Except.ok e' := by
  intro rem
  induction rem with
  | zero => exact fun i d d' e h hlen => ⟨e, rfl⟩
  | succ rem ih =>
    intro i d d' e h hlen
    unfold drawRows at h ⊢
    split at h
    · rename_i hge
      rw [if_pos hge]
      exact ⟨e, rfl⟩
    rename_i hlt
    rw [if_neg hlt]
    split at h
    · exact Except.noConfusion h
    rename_i row hrow
    split at h
    · exact Except.noConfusion h
    rename_i cur hcur
    obtain ⟨hdi, -⟩ := List.getElem?_eq_some_iff.mp hcur
    have hdie : (yc + i) * (DISPLAY_WIDTH / 8) + xb < e.length := by omega
    simp only [List.getElem?_eq_getElem hdie]
    split at h
    · rename_i hsp
      rw [if_pos hsp]
      split at h
      · exact Except.noConfusion h
      rename_i cur2 hcur2
      obtain ⟨hdi1, -⟩ := List.getElem?_eq_some_iff.mp hcur2
      rw [List.length_set] at hdi1
      have hdi1e : (yc + i) * (DISPLAY_WIDTH / 8) + xb + 1 <
          (e.set ((yc + i) * (DISPLAY_WIDTH / 8) + xb)
            (e[(yc + i) * (DISPLAY_WIDTH / 8) + xb] ^^^ row / 2 ^ xo)).length := by
        rw [List.length_set]; omega
      simp only [List.getElem?_eq_getElem hdi1e]
      exact ih (i + 1) _ d' _ h (by simp [List.length_set, hlen])
    · rename_i hsp
      rw [if_neg hsp]
      exact ih (i + 1) _ d' _ h (by simp [List.length_set, hlen])

theorem drawRows_involutive (mem : List Nat) (iB xb xo yc n : Nat) (d d' : List Nat)
    (h : drawRows mem iB xb xo yc 0 n d = Except.ok d') :
    drawRows mem iB xb xo yc 0 n d' = Except.ok d := by
  obtain ⟨hlen, hpt⟩ := drawRows_pointwise mem iB xb xo yc n 0 d d' h
  obtain ⟨e', he'⟩ := drawRows_ok_of_length mem iB xb xo yc n 0 d d' d' h hlen
  obtain ⟨hlen2, hpt2⟩ := drawRows_pointwise mem iB xb xo yc n 0 d' e' he'
  have hed : e' = d := by
    refine List.ext_getElem? fun k => ?_
    rw [hpt2 k, hpt k]
    cases d[k]? <;> simp [Nat.xor_cancel_right]
  rwa [hed] at he'

theorem cycle_eq_exec (s : Chip8) (b1 b2 : Nat)
    (h1 : s.memory[s.pc]? = some b1) (h2 : s.memory[s.pc + 1]? = some b2) :
    Chip8.cycle s =
      Chip8.exec { s with pc := s.pc + 2 } (b1 / 16) (b1 % 16) (b2 / 16) (b2 % 16) := by
  unfold Chip8.cycle
  rw [h1, h2]

theorem storeSlice_length : ∀ (src dest : List Nat) (start : Nat),
    (storeSlice dest start src).length = dest.length := by
  intro src
  induction src with
  | nil => intro dest start; rfl
  | cons b rest ih =>
    intro dest start
    rw [storeSlice, ih, List.length_set]

theorem storeSlice_getElem?_lt : ∀ (src dest : List Nat) (start k : Nat), k < start →
    (storeSlice dest start src)[k]? = dest[k]? := by
  intro src
  induction src with
  | nil => intro dest start k _; rfl
  | cons b rest ih =>
    intro dest start k hk
    rw [storeSlice, ih _ _ _ (by omega), List.getElem?_set_ne (by omega)]

theorem storeSlice_getElem?_in : ∀ (src dest : List Nat) (start k : Nat), k < src.length →
    start + src.length ≤ dest.length →
    (storeSlice dest start src)[start + k]? = src[k]? := by
  intro src
  induction src with
  | nil => intro dest start k hk _; exact absurd hk (by simp)
  | cons b rest ih =>
    intro dest start k hk hle
    rw [storeSlice]
    cases k with
    | zero =>
      rw [List.getElem?_cons_zero]
      have hgoal : (storeSlice (dest.set start b) (start + 1) rest)[start]? = some b := by
        rw [storeSlice_getElem?_lt _ _ _ _ (by omega),
          List.getElem?_set_self (show start < dest.length by simp at hle; omega)]
      exact hgoal
    | succ j =>
      have hsplit : start + (j + 1) = start + 1 + j := by omega
      rw [hsplit, ih _ _ _ (by simpa using hk) (by simp at hle ⊢; omega),
        List.getElem?_cons_succ]

theorem exec_memory_unchanged (t : Chip8) (o x y n : Nat) (u : Chip8)
    (h : Chip8.exec t o x y n = Except.ok u) : u.memory = t.memory := by
  unfold Chip8.exec at h
  repeat' split at h
  all_goals first
    | exact Except.noConfusion h
    | (cases h; rfl)

theorem exec_error_frame (t : Chip8) (o x y n : Nat) (u : Chip8)
    (hreg : 15 < t.registers.length)
    (h : Chip8.exec t o x y n = Except.error u) :
    u.memory = t.memory ∧ u.stack = t.stack ∧ u.i = t.i ∧
    u.delay_timer = t.delay_timer ∧ u.sound_timer = t.sound_timer ∧ u.pc = t.pc ∧
    (u.registers = t.registers ∨ u.registers = t.registers.set 15 0) := by
  unfold Chip8.exec at h
  repeat' split at h
  all_goals first
    | exact Except.noConfusion h
    | (cases h; exact ⟨rfl, rfl, rfl, rfl, rfl, rfl, Or.inl rfl⟩)
    | (cases h; exact ⟨rfl, rfl, rfl, rfl, rfl, rfl, Or.inr rfl⟩)
    | (cases h; simp_all [setChecked, List.length_set])
    | simp_all [setChecked, List.length_set]

theorem exec_draw (t : Chip8) (x y n a b : Nat)
    (ha : t.registers[x]? = some a) (hb : t.registers[y]? = some b)
    (h15 : 15 < t.registers.length) :
    Chip8.exec t 0xD x y n =
      (match drawRows t.memory t.i (a % DISPLAY_WIDTH / 8) (a % DISPLAY_WIDTH % 8)
          (b % DISPLAY_HEIGHT) 0 n t.display with
      | Except.error d =>
        Except.error { t with registers := t.registers.set 15 0, display := d }
      | Except.ok d =>
        Except.ok { t with registers := t.registers.set 15 0, display := d }) := by
  unfold Chip8.exec
  simp only [ha, hb, setChecked, h15, if_pos]

theorem cycle_add_eq (s : Chip8) (x y a b : Nat) (hx : x < 16) (hy : y < 16)
    (hb1 : s.memory[s.pc]? = some (0x80 + x))
    (hb2 : s.memory[s.pc + 1]? = some (y * 16 + 4))
    (ha : s.registers[x]? = some a) (hb : s.registers[y]? = some b)
    (h15 : 15 < s.registers.length) :
    Chip8.cycle s = Except.ok
      { s with
        pc := s.pc + 2
        registers := (s.registers.set x ((a + b) % 256)).set 15
          (if 256 ≤ a + b then 1 else 0) } := by
  have e1 : (0x80 + x) / 16 = 8 := by omega
  have e2 : (0x80 + x) % 16 = x := by omega
  have e3 : (y * 16 + 4) / 16 = y := by omega
  have e4 : (y * 16 + 4) % 16 = 4 := by omega
  rw [cycle_eq_exec s _ _ hb1 hb2, e1, e2, e3, e4]
  unfold Chip8.exec
  simp only [ha, hb, setChecked, List.length_set, h15, if_pos]

theorem timers_delay_sub (s : Chip8) :
    (Chip8.timers s).1.delay_timer = s.delay_timer - 1 := by
  simp only [Chip8.timers]
  split_ifs <;> simp_all

theorem timers_sound_sub (s : Chip8) :
    (Chip8.timers s).1.sound_timer = s.sound_timer - 1 := by
  simp only [Chip8.timers]
  split_ifs <;> simp_all

theorem timers_beep_count (s : Chip8) :
    (Chip8.timers s).2 = if 0 < s.sound_timer then 1 else 0 := by
  simp only [Chip8.timers]
  split_ifs <;> simp_all

theorem timers_pair_eq (s : Chip8) (h1 : s.delay_timer = 0) (h2 : s.sound_timer = 0) :
    Chip8.timers s = (s, 0) := by
  simp [Chip8.timers, h1, h2]

/-!
## The claims
-/

set_option maxRecDepth 4000 in
/-- C1: the code resets `VF` to 0 before drawing but never sets it on a
collision.  Evidence of the bug: executing `D011` at `sCollide`, whose
display pixel `(0, 0)` is set and whose sprite row `0x80` erases it (a
drawn pixel transitions from set to unset), ends with `VF = 0` although the
claim requires `VF = 1`. -/
theorem dxyn_collision_leaves_vf_zero :
    sCollide.display[0]? = some 0x80 ∧
    (Chip8.cycle sCollide).map (fun t => (t.registers[15]?, t.display[0]?)) =
      Except.ok (some 0, some 0) := ⟨rfl, rfl⟩

set_option maxRecDepth 4000 in
/-- C2: the guard `x_byte < DISPLAY_WIDTH / 8` before the spill write is
always true, so a sprite at column 60 is not clipped at the right edge: at
the bottom row (`sEdgeBottom`) the spill write targets display index 256 and
the cycle panics (out-of-bounds write), and at the top row (`sEdgeTop`) the
spilled pixels land in display byte 8, the first byte of the next row
(horizontal wrap-around into the row below). -/
theorem dxyn_right_edge_wraps_and_overflows :
    (Chip8.cycle sEdgeBottom).isOk = false ∧
    (Chip8.cycle sEdgeTop).map (fun t => (t.display[7]?, t.display[8]?)) =
      Except.ok (some 0x0F, some 0xF0) := ⟨rfl, rfl⟩

/-- C3 counterexample: a program one byte too large does not produce an
explicit capacity-error result — the constructor has no error result at all
(`NewResult` has no error constructor because `Chip8::new` returns `Self`);
the oversized copy is the modelled slice-range panic. -/
theorem new_oversized_program_is_panic :
    Chip8.new (List.replicate 3585 0) none = NewResult.panic := by
  unfold Chip8.new
  rw [List.length_replicate, if_neg (by norm_num)]

/-- C3 (amended): a program of exactly `4096 - 0x200` bytes is accepted and
loaded verbatim at `0x200` with `pc` starting there; one byte more makes the
constructor panic (the fatal slice-range failure), not return an error
result. -/
theorem new_capacity_boundary :
    (∀ program : List Nat, program.length = 4096 - 0x200 →
      ∃ c, Chip8.new program none = NewResult.ok c ∧ c.pc = 0x200 ∧
        ∀ k, k < program.length → c.memory[0x200 + k]? = program[k]?) ∧
    (∀ program : List Nat, program.length = 4096 - 0x200 + 1 →
      Chip8.new program none = NewResult.panic) := by
  constructor
  · intro program hlen
    unfold Chip8.new
    rw [if_pos (by omega)]
    refine ⟨_, rfl, rfl, fun k hk => ?_⟩
    show (storeSlice (storeSlice (List.replicate 4096 0) 0x050
        ((none : Option (List Nat)).getD FONT_BYTES)) 0x200 program)[0x200 + k]? =
      program[k]?
    exact storeSlice_getElem?_in program _ 0x200 k hk
      (by rw [storeSlice_length, List.length_replicate]; omega)
  · intro program hlen
    unfold Chip8.new
    rw [if_neg (by omega)]

/-- C3 witness: the boundary theorem applied to the two concrete programs of
lengths 3584 and 3585. -/
theorem new_capacity_boundary_witness :
    (∃ c, Chip8.new (List.replicate 3584 7) none = NewResult.ok c ∧ c.pc = 0x200 ∧
      ∀ k, k < (List.replicate (3584 : Nat) (7 : Nat)).length →
        c.memory[0x200 + k]? = (List.replicate 3584 7)[k]?) ∧
    Chip8.new (List.replicate 3585 7) none = NewResult.panic :=
  ⟨new_capacity_boundary.1 (List.replicate 3584 7) (by rw [List.length_replicate]),
   new_capacity_boundary.2 (List.replicate 3585 7) (by rw [List.length_replicate])⟩

/-- C4 counterexample: `cycle` can fail *after* mutating state.  At
`sOpcodeBad` the unimplemented opcode `B000` panics, and the panic-time state
has `pc` advanced by 2, so it is not the pre-call state. -/
theorem cycle_failure_mutates_pc :
    Chip8.cycle sOpcodeBad = Except.error { sOpcodeBad with pc := 2 } ∧
    ({ sOpcodeBad with pc := 2 } : Chip8).pc ≠ sOpcodeBad.pc := ⟨rfl, by decide⟩

/-- C4 (amended): when `cycle` fails on a well-formed register file, memory,
the stack, `I` and both timers are untouched, `pc` is either unchanged (fetch
failure) or already advanced by 2, and the registers are either unchanged or
have `VF` already cleared by a failing `Dxyn`; a failing `Dxyn` may further
leave the display partially drawn, so the failure is not free of mutation. -/
theorem cycle_error_frame (s t : Chip8) (hreg : 15 < s.registers.length)
    (h : Chip8.cycle s = Except.error t) :
    t.memory = s.memory ∧ t.stack = s.stack ∧ t.i = s.i ∧
    t.delay_timer = s.delay_timer ∧ t.sound_timer = s.sound_timer ∧
    (t.pc = s.pc ∨ t.pc = s.pc + 2) ∧
    (t.registers = s.registers ∨ t.registers = s.registers.set 15 0) := by
  unfold Chip8.cycle at h
  split at h
  · obtain ⟨h1, h2, h3, h4, h5, h6, h7⟩ :=
      exec_error_frame { s with pc := s.pc + 2 } _ _ _ _ t hreg h
    exact ⟨h1, h2, h3, h4, h5, Or.inr h6, h7⟩
  · cases h
    exact ⟨rfl, rfl, rfl, rfl, rfl, Or.inl rfl, Or.inl rfl⟩

/-- C4 witness: the frame theorem applied to the failing state `sOpcodeBad`. -/
theorem cycle_error_frame_witness :
    ({ sOpcodeBad with pc := 2 } : Chip8).memory = sOpcodeBad.memory ∧
    ({ sOpcodeBad with pc := 2 } : Chip8).stack = sOpcodeBad.stack ∧
    ({ sOpcodeBad with pc := 2 } : Chip8).i = sOpcodeBad.i ∧
    ({ sOpcodeBad with pc := 2 } : Chip8).delay_timer = sOpcodeBad.delay_timer ∧
    ({ sOpcodeBad with pc := 2 } : Chip8).sound_timer = sOpcodeBad.sound_timer ∧
    (({ sOpcodeBad with pc := 2 } : Chip8).pc = sOpcodeBad.pc ∨
      ({ sOpcodeBad with pc := 2 } : Chip8).pc = sOpcodeBad.pc + 2) ∧
    (({ sOpcodeBad with pc := 2 } : Chip8).registers = sOpcodeBad.registers ∨
      ({ sOpcodeBad with pc := 2 } : Chip8).registers = sOpcodeBad.registers.set 15 0) :=
  cycle_error_frame sOpcodeBad { sOpcodeBad with pc := 2 } (by decide) rfl

/-- C5 counterexample: for `x = 0xF` the final flag write overwrites the sum,
so `Vx` does not end at `(a + b) mod 256`: running `8F04` at `sAddVF`
(`VF = 5`, `V0 = 0`) leaves `VF = 0`, not `(5 + 0) % 256 = 5`. -/
theorem add_to_vf_loses_sum :
    (Chip8.cycle sAddVF).map (fun t => t.registers[15]?) = Except.ok (some 0) ∧
    some (0 : Nat) ≠ some ((5 + 0) % 256) := ⟨rfl, by decide⟩

/-- C5 (amended): for every register index `x ≠ 0xF` and `y`, executing
`8xy4` with `Vx = a`, `Vy = b` yields `Vx = (a + b) mod 256` and
`VF = 1` iff `a + b ≥ 256` (for `x = 0xF` the flag overwrites the sum). -/
theorem add_8xy4_sum_and_carry (s : Chip8) (x y a b : Nat)
    (hx : x < 16) (hy : y < 16) (hxF : x ≠ 15)
    (hb1 : s.memory[s.pc]? = some (0x80 + x))
    (hb2 : s.memory[s.pc + 1]? = some (y * 16 + 4))
    (ha : s.registers[x]? = some a) (hb : s.registers[y]? = some b)
    (h15 : 15 < s.registers.length) :
    ∃ s2, Chip8.cycle s = Except.ok s2 ∧
      s2.registers[x]? = some ((a + b) % 256) ∧
      s2.registers[15]? = some (if 256 ≤ a + b then 1 else 0) ∧
      s2.pc = s.pc + 2 := by
  obtain ⟨hxlen, -⟩ := List.getElem?_eq_some_iff.mp ha
  refine ⟨_, cycle_add_eq s x y a b hx hy hb1 hb2 ha hb h15, ?_, ?_, rfl⟩
  · show ((s.registers.set x ((a + b) % 256)).set 15
        (if 256 ≤ a + b then 1 else 0))[x]? = some ((a + b) % 256)
    rw [List.getElem?_set_ne (fun hc => hxF hc.symm), List.getElem?_set_self hxlen]
  · show ((s.registers.set x ((a + b) % 256)).set 15
        (if 256 ≤ a + b then 1 else 0))[15]? = some (if 256 ≤ a + b then 1 else 0)
    rw [List.getElem?_set_self (by rw [List.length_set]; exact h15)]

/-- C5 witness: the amended theorem at `sAddWit` (`V1 = 200`, `V2 = 100`). -/
theorem add_8xy4_sum_and_carry_witness :
    ∃ s2, Chip8.cycle sAddWit = Except.ok s2 ∧
      s2.registers[1]? = some ((200 + 100) % 256) ∧
      s2.registers[15]? = some (if 256 ≤ 200 + 100 then 1 else 0) ∧
      s2.pc = sAddWit.pc + 2 :=
  add_8xy4_sum_and_carry sAddWit 1 2 200 100 (by decide) (by decide) (by decide)
    rfl rfl rfl rfl (by decide)

/-- C10: when `8xy4` is executed with `x = 0xF`, the final value of `VF` is
the carry flag of `VF + Vy` (1 iff the sum is at least 256): the flag write
happens after the sum write and overwrites it. -/
theorem add_8xF4_vf_is_carry (s : Chip8) (y a b : Nat) (hy : y < 16)
    (hb1 : s.memory[s.pc]? = some 0x8F)
    (hb2 : s.memory[s.pc + 1]? = some (y * 16 + 4))
    (ha : s.registers[15]? = some a) (hb : s.registers[y]? = some b) :
    ∃ s2, Chip8.cycle s = Except.ok s2 ∧
      s2.registers[15]? = some (if 256 ≤ a + b then 1 else 0) ∧
      s2.pc = s.pc + 2 := by
  obtain ⟨h15, -⟩ := List.getElem?_eq_some_iff.mp ha
  have hb1a : s.memory[s.pc]? = some (0x80 + 15) := hb1
  refine ⟨_, cycle_add_eq s 15 y a b (by omega) hy hb1a hb2 ha hb h15, ?_, rfl⟩
  show ((s.registers.set 15 ((a + b) % 256)).set 15
      (if 256 ≤ a + b then 1 else 0))[15]? = some (if 256 ≤ a + b then 1 else 0)
  rw [List.set_set, List.getElem?_set_self h15]

/-- C10 witness: the carry theorem at `sAddCarryWit` (`VF = 200`,
`V2 = 100`). -/
theorem add_8xF4_vf_is_carry_witness :
    ∃ s2, Chip8.cycle sAddCarryWit = Except.ok s2 ∧
      s2.registers[15]? = some (if 256 ≤ 200 + 100 then 1 else 0) ∧
      s2.pc = sAddCarryWit.pc + 2 :=
  add_8xF4_vf_is_carry sAddCarryWit 2 200 100 (by decide) rfl rfl rfl rfl

set_option maxRecDepth 4000 in
/-- C6 counterexample: drawing the same sprite twice does restore the
display, but the second draw does not set `VF = 1` where the first draw set
pixels: at `sDbl` the first `D011` sets pixel `(0, 0)` (display byte 0
becomes `0x80`), yet after the second `D011` the flag is `0`, not `1`. -/
theorem dxyn_second_draw_vf_zero :
    (Chip8.cycle sDbl).map (fun t => t.display[0]?) = Except.ok (some 0x80) ∧
    ((Chip8.cycle sDbl).bind Chip8.cycle).map
      (fun t => (t.registers[15]?, t.display[0]?)) = Except.ok (some 0, some 0) ∧
    some (0 : Nat) ≠ some (1 : Nat) := ⟨rfl, rfl, by decide⟩

/-- C6 (amended): executing the same `Dxyn` twice in a row, with `I`, the
sprite memory and the two coordinate registers unchanged, restores the
display exactly (XOR is self-inverse); `VF` is 0 after the second draw — the
code never reports a collision. -/
theorem dxyn_twice_restores_display (s s1 : Chip8) (x y n a b : Nat)
    (hx : x < 16) (hy : y < 16) (hn : n < 16)
    (hb1 : s.memory[s.pc]? = some (0xD0 + x))
    (hb2 : s.memory[s.pc + 1]? = some (y * 16 + n))
    (hb3 : s.memory[s.pc + 2]? = some (0xD0 + x))
    (hb4 : s.memory[s.pc + 3]? = some (y * 16 + n))
    (ha : s.registers[x]? = some a) (hbr : s.registers[y]? = some b)
    (hx15 : x = 15 → a = 0) (hy15 : y = 15 → b = 0)
    (h15 : 15 < s.registers.length)
    (hcy : Chip8.cycle s = Except.ok s1) :
    ∃ s2, Chip8.cycle s1 = Except.ok s2 ∧ s2.display = s.display ∧
      s2.registers[15]? = some 0 ∧ s2.pc = s.pc + 4 := by
  have e1 : (0xD0 + x) / 16 = 13 := by omega
  have e2 : (0xD0 + x) % 16 = x := by omega
  have e3 : (y * 16 + n) / 16 = y := by omega
  have e4 : (y * 16 + n) % 16 = n := by omega
  have hax : (s.registers.set 15 0)[x]? = some a := by
    by_cases hxf : x = 15
    · subst hxf
      rw [List.getElem?_set_self h15, hx15 rfl]
    · rw [List.getElem?_set_ne (fun hc => hxf hc.symm)]
      exact ha
  have hay : (s.registers.set 15 0)[y]? = some b := by
    by_cases hyf : y = 15
    · subst hyf
      rw [List.getElem?_set_self h15, hy15 rfl]
    · rw [List.getElem?_set_ne (fun hc => hyf hc.symm)]
      exact hbr
  rw [cycle_eq_exec s _ _ hb1 hb2, e1, e2, e3, e4,
    exec_draw { s with pc := s.pc + 2 } x y n a b ha hbr h15] at hcy
  rcases hdr : drawRows s.memory s.i (a % DISPLAY_WIDTH / 8) (a % DISPLAY_WIDTH % 8)
      (b % DISPLAY_HEIGHT) 0 n s.display with d | d
  · rw [hdr] at hcy
    exact Except.noConfusion hcy
  · rw [hdr] at hcy
    cases hcy
    rw [cycle_eq_exec _ _ _ hb3 hb4, e1, e2, e3, e4,
      exec_draw _ x y n a b hax hay (by rw [List.length_set]; exact h15),
      drawRows_involutive _ _ _ _ _ _ _ _ hdr]
    refine ⟨_, rfl, rfl, ?_, ?_⟩
    · show ((s.registers.set 15 0).set 15 0)[15]? = some 0
      rw [List.getElem?_set_self]
      rw [List.length_set]
      exact h15
    · show s.pc + 2 + 2 = s.pc + 4
      omega

set_option maxRecDepth 4000 in
/-- C6 witness: the double-draw theorem at `sDbl`, whose first cycle yields
`sDblMid`. -/
theorem dxyn_twice_restores_display_witness :
    ∃ s2, Chip8.cycle sDblMid = Except.ok s2 ∧ s2.display = sDbl.display ∧
      s2.registers[15]? = some 0 ∧ s2.pc = sDbl.pc + 4 :=
  dxyn_twice_restores_display sDbl sDblMid 0 1 1 0 0 (by decide) (by decide) (by decide)
    rfl rfl rfl rfl rfl rfl (fun _ => rfl) (fun _ => rfl) (by decide) rfl

/-- C7: a call `2addr` pushes the already-advanced `pc` (the address of the
instruction following the call) and jumps; a later `00EE` executed with that
stack pops it back into `pc`, so after the pair `pc` equals the pre-call
`pc` plus 2. -/
theorem call_then_return_pc (s : Chip8) (x y n : Nat)
    (hx : x < 16) (hy : y < 16) (hn : n < 16)
    (hb1 : s.memory[s.pc]? = some (0x20 + x))
    (hb2 : s.memory[s.pc + 1]? = some (y * 16 + n)) :
    ∃ s2, Chip8.cycle s = Except.ok s2 ∧ s2.pc = x * 256 + y * 16 + n ∧
      s2.stack = (s.pc + 2) :: s.stack ∧
      ∀ t, t.stack = (s.pc + 2) :: s.stack →
        t.memory[t.pc]? = some 0x00 → t.memory[t.pc + 1]? = some 0xEE →
        Chip8.cycle t = Except.ok { t with pc := s.pc + 2, stack := s.stack } := by
  have e1 : (0x20 + x) / 16 = 2 := by omega
  have e2 : (0x20 + x) % 16 = x := by omega
  have e3 : (y * 16 + n) / 16 = y := by omega
  have e4 : (y * 16 + n) % 16 = n := by omega
  rw [cycle_eq_exec s _ _ hb1 hb2, e1, e2, e3, e4]
  refine ⟨_, rfl, rfl, rfl, ?_⟩
  intro t hst h1 h2
  rw [cycle_eq_exec t _ _ h1 h2]
  show Chip8.exec { t with pc := t.pc + 2 } 0 0 14 14 = _
  unfold Chip8.exec
  simp only [hst]
  rfl

/-- C7 witness: the call/return theorem at `sCall` (call `2123` at
`pc = 0`). -/
theorem call_then_return_pc_witness :
    ∃ s2, Chip8.cycle sCall = Except.ok s2 ∧ s2.pc = 1 * 256 + 2 * 16 + 3 ∧
      s2.stack = (sCall.pc + 2) :: sCall.stack ∧
      ∀ t, t.stack = (sCall.pc + 2) :: sCall.stack →
        t.memory[t.pc]? = some 0x00 → t.memory[t.pc + 1]? = some 0xEE →
        Chip8.cycle t = Except.ok { t with pc := sCall.pc + 2, stack := sCall.stack } :=
  call_then_return_pc sCall 1 2 3 (by decide) (by decide) (by decide) rfl rfl

/-- C8: one timer tick decrements the delay timer when it is positive,
invokes the beep callback exactly once and decrements the sound timer when
that is positive, and does nothing at all when both are zero; from sound
timer 3, three ticks beep once each and reach 0, and a fourth tick does not
beep. -/
theorem timers_spec (s : Chip8) :
    (0 < s.delay_timer → (Chip8.timers s).1.delay_timer = s.delay_timer - 1) ∧
    (s.delay_timer = 0 → (Chip8.timers s).1.delay_timer = 0) ∧
    (0 < s.sound_timer →
      (Chip8.timers s).2 = 1 ∧ (Chip8.timers s).1.sound_timer = s.sound_timer - 1) ∧
    (s.delay_timer = 0 → s.sound_timer = 0 → Chip8.timers s = (s, 0)) ∧
    (s.sound_timer = 3 →
      (Chip8.timers s).2 = 1 ∧
      (Chip8.timers (Chip8.timers s).1).2 = 1 ∧
      (Chip8.timers (Chip8.timers (Chip8.timers s).1).1).2 = 1 ∧
      (Chip8.timers (Chip8.timers (Chip8.timers s).1).1).1.sound_timer = 0 ∧
      (Chip8.timers (Chip8.timers (Chip8.timers (Chip8.timers s).1).1).1).2 = 0) := by
  refine ⟨fun h => ?_, fun h => ?_, fun h => ⟨?_, ?_⟩, timers_pair_eq s, fun h3 => ?_⟩
  · rw [timers_delay_sub]
  · rw [timers_delay_sub, h]
  · rw [timers_beep_count, if_pos h]
  · exact timers_sound_sub s
  · have c1 : (Chip8.timers s).1.sound_timer = 2 := by rw [timers_sound_sub, h3]
    have c2 : (Chip8.timers (Chip8.timers s).1).1.sound_timer = 1 := by
      rw [timers_sound_sub, c1]
    have c3 : (Chip8.timers (Chip8.timers (Chip8.timers s).1).1).1.sound_timer = 0 := by
      rw [timers_sound_sub, c2]
    refine ⟨?_, ?_, ?_, c3, ?_⟩
    · rw [timers_beep_count, if_pos (by omega)]
    · rw [timers_beep_count, c1]
      rfl
    · rw [timers_beep_count, c2]
      rfl
    · rw [timers_beep_count, c3]
      rfl

/-- C8 witness: the timer theorem at `sTimerWit` (delay 5, sound 3). -/
theorem timers_spec_witness :
    (0 < sTimerWit.delay_timer →
      (Chip8.timers sTimerWit).1.delay_timer = sTimerWit.delay_timer - 1) ∧
    (sTimerWit.delay_timer = 0 → (Chip8.timers sTimerWit).1.delay_timer = 0) ∧
    (0 < sTimerWit.sound_timer →
      (Chip8.timers sTimerWit).2 = 1 ∧
      (Chip8.timers sTimerWit).1.sound_timer = sTimerWit.sound_timer - 1) ∧
    (sTimerWit.delay_timer = 0 → sTimerWit.sound_timer = 0 →
      Chip8.timers sTimerWit = (sTimerWit, 0)) ∧
    (sTimerWit.sound_timer = 3 →
      (Chip8.timers sTimerWit).2 = 1 ∧
      (Chip8.timers (Chip8.timers sTimerWit).1).2 = 1 ∧
      (Chip8.timers (Chip8.timers (Chip8.timers sTimerWit).1).1).2 = 1 ∧
      (Chip8.timers (Chip8.timers (Chip8.timers sTimerWit).1).1).1.sound_timer = 0 ∧
      (Chip8.timers (Chip8.timers (Chip8.timers
        (Chip8.timers sTimerWit).1).1).1).2 = 0) :=
  timers_spec sTimerWit

/-- C9: a successful `cycle` never writes to memory: whatever instruction
runs, the 4096-byte memory of the result equals the memory of the input
state. -/
theorem cycle_does_not_write_memory (s s2 : Chip8)
    (h : Chip8.cycle s = Except.ok s2) : s2.memory = s.memory := by
  unfold Chip8.cycle at h
  split at h
  · exact exec_memory_unchanged { s with pc := s.pc + 2 } _ _ _ _ s2 h
  · exact Except.noConfusion h

/-- C9 witness: the memory-preservation theorem at `sClear`, whose `00E0`
clears the display but leaves memory intact. -/
theorem cycle_does_not_write_memory_witness :
    sClearAfter.memory = sClear.memory :=
  cycle_does_not_write_memory sClear sClearAfter rfl
